import Mathlib

/-!
Formal model of the Pharma PreAuditor precedent engine.

The definitions below are shallow embeddings of the TypeScript source:
similarity scores are exact rationals, JS strings are Lean strings,
nullable values are `Option`, and arrays are lists.  The source's decimal
thresholds 0.75, 0.8, 0.85 are written as the exact rationals 3/4, 4/5,
17/20 (given by explicit numerator/denominator so that they evaluate by
kernel reduction); `riskThreshold_values` below ties them back to the
division expressions.
-/

namespace FW

/-- The three risk levels of `predictive_audit.ts`. -/
inductive RiskLevel
| RED
| YELLOW
| GREEN
deriving DecidableEq, Repr

/-- JS `String.prototype.toLowerCase`, modelled characterwise.  All strings
handled by the program's classifier ("Critical", "Concerned", ...) are ASCII,
where `Char.toLower` agrees with the JS function. -/
def jsToLower (s : String) : String :=
  String.mk (s.data.map Char.toLower)

/-- The classifier threshold 0.75 as an exact rational. -/
def q075 : ℚ := ⟨3, 4, by norm_num, by norm_num⟩

/-- The classifier threshold 0.80 as an exact rational. -/
def q080 : ℚ := ⟨4, 5, by norm_num, by norm_num⟩

/-- The classifier threshold 0.85 as an exact rational. -/
def q085 : ℚ := ⟨17, 20, by norm_num, by norm_num⟩

/-- The three threshold constants are the rationals 3/4, 4/5 and 17/20. -/
theorem riskThreshold_values : q075 = 3/4 ∧ q080 = 4/5 ∧ q085 = 17/20 := by
  refine ⟨?_, ?_, ?_⟩
  · rw [q075, Rat.mk'_eq_divInt, Rat.divInt_eq_div] ; norm_num
  · rw [q080, Rat.mk'_eq_divInt, Rat.divInt_eq_div] ; norm_num
  · rw [q085, Rat.mk'_eq_divInt, Rat.divInt_eq_div] ; norm_num

/-- `assignRiskLevel` from `src/app/actions/predictive_audit.ts` (lines 37-47).
The JS `(reviewerSentiment || "").toLowerCase()` is modelled by
`jsToLower (reviewerSentiment.getD "")`: a `null`/`undefined` sentiment becomes
the empty string before lower-casing. -/
def assignRiskLevel (similarity : ℚ) (reviewerSentiment : Option String) : RiskLevel :=
  let sentiment := jsToLower (reviewerSentiment.getD "")
  if sentiment = "critical" ∧ q075 ≤ similarity then RiskLevel.RED
  else if sentiment = "critical" ∨ (sentiment = "concerned" ∧ q080 ≤ similarity) then RiskLevel.RED
  else if sentiment = "concerned" ∨ q085 ≤ similarity then RiskLevel.YELLOW
  else RiskLevel.GREEN

/-- The ordered rule list as the specification states it (first match wins):
Critical → RED; Concerned and similarity ≥ 0.80 → RED; Concerned → YELLOW;
similarity ≥ 0.85 → YELLOW; otherwise GREEN.  This definition follows the
spec's words and is compared against `assignRiskLevel`, which is translated
from the source. -/
def classifySpecRules (similarity : ℚ) (reviewerSentiment : Option String) : RiskLevel :=
  let sentiment := jsToLower (reviewerSentiment.getD "")
  if sentiment = "critical" then RiskLevel.RED
  else if sentiment = "concerned" ∧ q080 ≤ similarity then RiskLevel.RED
  else if sentiment = "concerned" then RiskLevel.YELLOW
  else if q085 ≤ similarity then RiskLevel.YELLOW
  else RiskLevel.GREEN

/-- Similarity 0.9, used in the spec's classifier examples. -/
def q090 : ℚ := ⟨9, 10, by norm_num, by norm_num⟩

/-- Similarity 0.5, used in the spec's classifier examples. -/
def q050 : ℚ := ⟨1, 2, by norm_num, by norm_num⟩

/-- Similarity 0.82, used in the spec's classifier examples. -/
def q082 : ℚ := ⟨41, 50, by norm_num, by norm_num⟩

/-- Similarity 0.6, used in the spec's classifier examples. -/
def q060 : ℚ := ⟨3, 5, by norm_num, by norm_num⟩

/-- C1: the risk classifier agrees, for every similarity and every sentiment
value, with the spec's ordered rule list, and takes the six concrete values
listed in the spec: classify(0.9, Critical)=RED, classify(0.5, Critical)=RED,
classify(0.82, Concerned)=RED, classify(0.6, Concerned)=YELLOW,
classify(0.9, Neutral)=YELLOW, classify(0.5, Neutral)=GREEN. -/
theorem assignRiskLevel_follows_ordered_rules :
    (∀ (similarity : ℚ) (s : Option String),
      assignRiskLevel similarity s = classifySpecRules similarity s) ∧
    assignRiskLevel q090 (some "Critical") = RiskLevel.RED ∧
    assignRiskLevel q050 (some "Critical") = RiskLevel.RED ∧
    assignRiskLevel q082 (some "Concerned") = RiskLevel.RED ∧
    assignRiskLevel q060 (some "Concerned") = RiskLevel.YELLOW ∧
    assignRiskLevel q090 (some "Neutral") = RiskLevel.YELLOW ∧
    assignRiskLevel q050 (some "Neutral") = RiskLevel.GREEN := by
  refine ⟨?_, by decide, by decide, by decide, by decide, by decide, by decide⟩
  intro similarity s
  simp only [assignRiskLevel, classifySpecRules]
  by_cases hc : jsToLower (s.getD "") = "critical" <;>
    by_cases ho : jsToLower (s.getD "") = "concerned" <;>
    by_cases h1 : q075 ≤ similarity <;>
    by_cases h2 : q080 ≤ similarity <;>
    by_cases h3 : q085 ≤ similarity <;>
    simp_all

/-- Clamping of a similarity value into `[0,1]`. -/
def clamp01 (x : ℚ) : ℚ := max 0 (min 1 x)

/-- Canonicalisation of a sentiment value as the spec describes defensive
classification: a recognized label ("critical"/"concerned" up to case) is kept,
anything else — including an absent value — is treated as "Unspecified". -/
def canonicalSentiment (s : Option String) : Option String :=
  let t := jsToLower (s.getD "")
  if t = "critical" ∨ t = "concerned" then s else some "Unspecified"

/-- Clamping into `[0,1]` does not change comparison against a cutoff in
`(0,1]`. -/
theorem clamp01_le_iff {c x : ℚ} (h0 : 0 < c) (h1 : c ≤ 1) :
    c ≤ clamp01 x ↔ c ≤ x := by
  unfold clamp01
  rw [le_max_iff, le_min_iff]
  constructor
  · rintro (hc | ⟨-, hx⟩)
    · exact absurd hc (not_le.mpr h0)
    · exact hx
  · intro hx
    exact Or.inr ⟨h1, hx⟩

theorem q075_pos : (0 : ℚ) < q075 ∧ q075 ≤ 1 := by decide

theorem q080_pos : (0 : ℚ) < q080 ∧ q080 ≤ 1 := by decide

theorem q085_pos : (0 : ℚ) < q085 ∧ q085 ≤ 1 := by decide

/-- C6: the classifier is total on malformed input and classifies it exactly
as the clamped similarity with an unrecognized or absent sentiment treated as
"Unspecified": `assignRiskLevel sim s` equals
`assignRiskLevel (clamp01 sim) (canonicalSentiment s)` for every rational
similarity (also outside `[0,1]`) and every optional sentiment string. -/
theorem assignRiskLevel_defensive :
    ∀ (similarity : ℚ) (s : Option String),
      assignRiskLevel similarity s
        = assignRiskLevel (clamp01 similarity) (canonicalSentiment s) := by
  intro similarity s
  have e075 := clamp01_le_iff (x := similarity) q075_pos.1 q075_pos.2
  have e080 := clamp01_le_iff (x := similarity) q080_pos.1 q080_pos.2
  have e085 := clamp01_le_iff (x := similarity) q085_pos.1 q085_pos.2
  simp only [assignRiskLevel, canonicalSentiment]
  by_cases hc : jsToLower (s.getD "") = "critical"
  · simp [hc, e075, e080, e085]
  · by_cases ho : jsToLower (s.getD "") = "concerned"
    · simp [hc, ho, e075, e080, e085]
    · have hu : jsToLower "Unspecified" = "unspecified" := by decide
      have hu1 : ("unspecified" : String) ≠ "critical" := by decide
      have hu2 : ("unspecified" : String) ≠ "concerned" := by decide
      simp [hc, ho, hu, hu1, hu2, e075, e080, e085]

/-- JS string truthiness/trim helper: the set of characters the JS `\s` class
and `String.prototype.trim` treat as whitespace, restricted to ASCII (the
program's segmenter and classifier only handle ASCII separators). -/
def isJSWhitespace (c : Char) : Bool :=
  c == ' ' || c == '\t' || c == '\n' || c == '\x0b' || c == '\x0c' || c == '\r'

/-- JS `String.prototype.trim`, modelled on the character list (Lean's own
`String.trim` is position-based and does not evaluate by kernel reduction). -/
def jsTrim (s : String) : String :=
  String.mk (((s.data.dropWhile isJSWhitespace).reverse.dropWhile isJSWhitespace).reverse)

/-- JS `String.prototype.split` with a single-character separator
(used for the `\f` page split in `processExtractedText`). -/
def splitOnChar (sep : Char) : List Char → List Char → List String
  | [], acc => [String.mk acc.reverse]
  | c :: rest, acc =>
    if c == sep then String.mk acc.reverse :: splitOnChar sep rest []
    else splitOnChar sep rest (c :: acc)

/-- One row returned by the store's `match_regulatory_precedents` RPC
(the result type of `searchPrecedents`, `predictive_audit.ts` lines 69-77). -/
structure PrecedentRow where
  id : String
  content : String
  similarity : ℚ
  drug_class : Option String
  therapeutic_area : Option String
  review_type : Option String
  reviewer_sentiment : Option String
deriving DecidableEq, Repr

/-- The three search angles of `predictive_audit`. -/
inductive Angle
| A
| B
| C
deriving DecidableEq, Repr

/-- `AuditFinding` from `predictive_audit.ts` (lines 16-28). -/
structure AuditFinding where
  id : String
  angle : Angle
  angleLabel : String
  content : String
  similarity : ℚ
  drugClass : Option String
  therapeuticArea : Option String
  reviewType : Option String
  reviewerSentiment : Option String
  riskLevel : RiskLevel
  summary : String
deriving DecidableEq, Repr

/-- Label of angle A (`angleLabels.A`). -/
def angleLabelA : String := "Safety Signals (Similar Drug Classes)"

/-- Label of angle B (`angleLabels.B`). -/
def angleLabelB : String := "Reviewer Stickler Points (PK/PD)"

/-- Label of angle C (`angleLabels.C`). -/
def angleLabelC : String := "EMA EPAR Safety Warnings"

/-- `r.content.slice(0, 200) + (r.content.length > 200 ? "..." : "")`. -/
def summaryOf (content : String) : String :=
  content.take 200 ++ (if 200 < content.length then "..." else "")

/-- Construction of one finding from one store row (the loop bodies at
`predictive_audit.ts` lines 112-156, identical for the three angles up to the
angle tag and label). -/
def mkFinding (angle : Angle) (angleLabel : String) (r : PrecedentRow) : AuditFinding :=
  { id := r.id
    angle := angle
    angleLabel := angleLabel
    content := r.content
    similarity := r.similarity
    drugClass := r.drug_class
    therapeuticArea := r.therapeutic_area
    reviewType := r.review_type
    reviewerSentiment := r.reviewer_sentiment
    riskLevel := assignRiskLevel r.similarity r.reviewer_sentiment
    summary := summaryOf r.content }

/-- The findings array built by concatenating angle A's, then angle B's, then
angle C's results, each in store rank order. -/
def buildFindings (ra rb rc : List PrecedentRow) : List AuditFinding :=
  ra.map (mkFinding Angle.A angleLabelA) ++ rb.map (mkFinding Angle.B angleLabelB)
    ++ rc.map (mkFinding Angle.C angleLabelC)

/-- The dedupe-by-id filter of `predictive_audit.ts` lines 158-164: the JS
`Set` named `seen` is threaded as a list of already-kept ids. -/
def dedupeById : List AuditFinding → List String → List AuditFinding
  | [], _ => []
  | f :: rest, seen =>
    if f.id ∈ seen then dedupeById rest seen
    else f :: dedupeById rest (f.id :: seen)

/-- The `riskSummary` record of `PredictiveAuditResult`. -/
structure RiskSummary where
  red : Nat
  yellow : Nat
  green : Nat
deriving DecidableEq, Repr

/-- The risk tally of `predictive_audit.ts` lines 166-170, computed over the
deduplicated findings. -/
def riskSummaryOf (u : List AuditFinding) : RiskSummary :=
  { red := (u.filter (fun f => decide (f.riskLevel = RiskLevel.RED))).length
    yellow := (u.filter (fun f => decide (f.riskLevel = RiskLevel.YELLOW))).length
    green := (u.filter (fun f => decide (f.riskLevel = RiskLevel.GREEN))).length }

/-- The filter argument of one `searchPrecedents` call. -/
structure SearchFilters where
  reviewType : Option String
  jurisdiction : Option String
  drugClass : Option String
deriving DecidableEq, Repr

/-- The findings/riskSummary part of `PredictiveAuditResult` (the
`executiveSummary` narrative and `guidanceContextUsed` flag are produced by
external collaborators and are not referenced by any claim). -/
structure AuditOutcome where
  findings : List AuditFinding
  riskSummary : RiskSummary
deriving Repr

/-- The retrieval-and-classification core of `predictive_audit`
(`predictive_audit.ts` lines 91-170 and 213-218).  `embedResult` is `some`
of the query vector when `getEmbedding` succeeds and `none` when it throws
(the `catch` at lines 100-102 leaves all three angle result arrays empty).
`store` abstracts the `match_regulatory_precedents` RPC: given the query
embedding, the filters, and the limit, it returns the ranked rows (a store
error already yields `[]` inside `searchPrecedents`). -/
def predictive_audit (embedResult : Option (List ℚ))
    (store : List ℚ → SearchFilters → Nat → List PrecedentRow) : AuditOutcome :=
  let results : List PrecedentRow × List PrecedentRow × List PrecedentRow :=
    match embedResult with
    | none => ([], [], [])
    | some e =>
      (store e ⟨some "Medical", none, none⟩ 12,
       store e ⟨some "Pharmacology", none, none⟩ 12,
       store e ⟨none, some "EMA", none⟩ 12)
  let findings := buildFindings results.1 results.2.1 results.2.2
  let uniqueFindings := dedupeById findings []
  { findings := uniqueFindings, riskSummary := riskSummaryOf uniqueFindings }

/-- An element of the deduplicated list comes from the input list and its id
was not among the already-seen ids. -/
theorem dedupeById_mem {l : List AuditFinding} {seen : List String}
    {f : AuditFinding} (h : f ∈ dedupeById l seen) : f ∈ l ∧ f.id ∉ seen := by
  induction l generalizing seen with
  | nil => simp [dedupeById] at h
  | cons g rest ih =>
    by_cases hg : g.id ∈ seen
    · rw [dedupeById, if_pos hg] at h
      rcases ih h with ⟨h1, h2⟩
      exact ⟨List.mem_cons_of_mem _ h1, h2⟩
    · rw [dedupeById, if_neg hg] at h
      rcases List.mem_cons.mp h with rfl | h'
      · exact ⟨List.mem_cons_self _ _, hg⟩
      · rcases ih h' with ⟨h1, h2⟩
        exact ⟨List.mem_cons_of_mem _ h1, fun hs => h2 (List.mem_cons_of_mem _ hs)⟩

/-- Each retained finding is the first element of the input carrying its id. -/
theorem dedupeById_find? {l : List AuditFinding} {seen : List String}
    {f : AuditFinding} (h : f ∈ dedupeById l seen) :
    l.find? (fun g => decide (g.id = f.id)) = some f := by
  induction l generalizing seen with
  | nil => simp [dedupeById] at h
  | cons g rest ih =>
    by_cases hg : g.id ∈ seen
    · rw [dedupeById, if_pos hg] at h
      have hne : ¬ (g.id = f.id) := fun he => (dedupeById_mem h).2 (he ▸ hg)
      rw [List.find?_cons_of_neg _ (by simpa using hne)]
      exact ih h
    · rw [dedupeById, if_neg hg] at h
      rcases List.mem_cons.mp h with rfl | h'
      · rw [List.find?_cons_of_pos _ (by simp)]
      · have hne : ¬ (g.id = f.id) := fun he =>
          (dedupeById_mem h').2 (he ▸ List.mem_cons_self _ _)
        rw [List.find?_cons_of_neg _ (by simpa using hne)]
        exact ih h'

/-- The ids surviving deduplication are exactly the input ids not yet seen. -/
theorem dedupeById_id_mem {l : List AuditFinding} {seen : List String} {i : String} :
    i ∈ (dedupeById l seen).map (fun f => f.id)
      ↔ i ∈ l.map (fun f => f.id) ∧ i ∉ seen := by
  induction l generalizing seen with
  | nil => simp [dedupeById]
  | cons g rest ih =>
    by_cases hg : g.id ∈ seen
    · rw [dedupeById, if_pos hg]
      rw [ih, List.map_cons, List.mem_cons]
      constructor
      · rintro ⟨h1, h2⟩
        exact ⟨Or.inr h1, h2⟩
      · rintro ⟨h1 | h1, h2⟩
        · exact absurd (h1 ▸ hg) h2
        · exact ⟨h1, h2⟩
    · rw [dedupeById, if_neg hg]
      rw [List.map_cons, List.mem_cons, ih, List.map_cons, List.mem_cons, List.mem_cons, not_or]
      constructor
      · rintro (rfl | ⟨h1, hne, h2⟩)
        · exact ⟨Or.inl rfl, hg⟩
        · exact ⟨Or.inr h1, h2⟩
      · rintro ⟨h1 | h1, h2⟩
        · exact Or.inl h1
        · by_cases hig : i = g.id
          · exact Or.inl hig
          · exact Or.inr ⟨h1, hig, h2⟩

/-- Deduplication leaves no repeated ids. -/
theorem dedupeById_ids_nodup (l : List AuditFinding) (seen : List String) :
    ((dedupeById l seen).map (fun f => f.id)).Nodup := by
  induction l generalizing seen with
  | nil => simp [dedupeById]
  | cons g rest ih =>
    by_cases hg : g.id ∈ seen
    · rw [dedupeById, if_pos hg]
      exact ih seen
    · rw [dedupeById, if_neg hg, List.map_cons, List.nodup_cons]
      refine ⟨fun hmem => ?_, ih _⟩
      exact (dedupeById_id_mem.mp hmem).2 (List.mem_cons_self _ _)

/-- The size of the deduplicated list is the number of distinct input ids. -/
theorem dedupeById_length (l : List AuditFinding) :
    (dedupeById l []).length = ((l.map (fun f => f.id)).toFinset).card := by
  have h1 : (dedupeById l []).length = ((dedupeById l []).map (fun f => f.id)).length :=
    (List.length_map _ _).symm
  rw [h1, ← List.toFinset_card_of_nodup (dedupeById_ids_nodup l [])]
  congr 1
  ext i
  simp only [List.mem_toFinset]
  constructor
  · intro hmem
    exact (dedupeById_id_mem.mp hmem).1
  · intro hmem
    exact dedupeById_id_mem.mpr ⟨hmem, List.not_mem_nil i⟩

/-- `find?` looks only at the first list of an append when it finds a hit
there. -/
theorem find?_append_of_isSome {α : Type} (p : α → Bool) (l₁ l₂ : List α)
    (h : (l₁.find? p).isSome) : (l₁ ++ l₂).find? p = l₁.find? p := by
  induction l₁ with
  | nil => simp at h
  | cons a l ih =>
    by_cases ha : p a
    · rw [List.cons_append, List.find?_cons_of_pos _ ha, List.find?_cons_of_pos _ ha]
    · rw [List.find?_cons_of_neg _ ha] at h
      rw [List.cons_append, List.find?_cons_of_neg _ ha, List.find?_cons_of_neg _ ha]
      exact ih h

/-- C2: merged findings keep exactly the first occurrence in the
A-then-B-then-C concatenation.  For all angle result lists: the deduplicated
ids are free of repeats; the merged count equals the number of distinct chunk
ids across all angles; each merged finding is the first finding of the
concatenation with its id (so the earlier angle's label and annotations win);
and any merged finding whose chunk id appears in angle A's results — at any
rank — carries angle A's tag. -/
theorem predictive_audit_first_occurrence_dedupe :
    ∀ ra rb rc : List PrecedentRow,
      ((dedupeById (buildFindings ra rb rc) []).map (fun f => f.id)).Nodup ∧
      (dedupeById (buildFindings ra rb rc) []).length
        = (((buildFindings ra rb rc).map (fun f => f.id)).toFinset).card ∧
      (∀ f ∈ dedupeById (buildFindings ra rb rc) [],
        (buildFindings ra rb rc).find? (fun g => decide (g.id = f.id)) = some f) ∧
      (∀ f ∈ dedupeById (buildFindings ra rb rc) [],
        (∃ r ∈ ra, r.id = f.id) → f.angle = Angle.A) := by
  intro ra rb rc
  refine ⟨dedupeById_ids_nodup _ _, dedupeById_length _, ?_, ?_⟩
  · intro f hf
    exact dedupeById_find? hf
  · intro f hf hex
    rcases hex with ⟨r, hr, hid⟩
    have hfind := dedupeById_find? hf
    have hsome : ((ra.map (mkFinding Angle.A angleLabelA)).find?
        (fun g => decide (g.id = f.id))).isSome := by
      rw [List.find?_isSome]
      exact ⟨mkFinding Angle.A angleLabelA r, List.mem_map_of_mem _ hr,
        by simp [mkFinding, hid]⟩
    have happ : (buildFindings ra rb rc).find? (fun g => decide (g.id = f.id))
        = (ra.map (mkFinding Angle.A angleLabelA)).find?
            (fun g => decide (g.id = f.id)) := by
      rw [buildFindings, List.append_assoc]
      exact find?_append_of_isSome _ _ _ hsome
    rw [happ] at hfind
    rcases List.mem_map.mp (List.mem_of_find?_eq_some hfind) with ⟨r', -, rfl⟩
    rfl

/-- Angle-A row at rank 1 of the first-occurrence witness scenario. -/
def exRowA1 : PrecedentRow := ⟨"a1", "angle A rank-1 row", q050, none, none, none, none⟩

/-- Angle-A row at rank 2 of the witness scenario; its id also appears in
angle B. -/
def exRowA2 : PrecedentRow := ⟨"dup", "angle A rank-2 row", q060, none, none, none, none⟩

/-- Angle-B row at rank 1 of the witness scenario, same chunk id as
`exRowA2`. -/
def exRowB1 : PrecedentRow := ⟨"dup", "angle B rank-1 row", q090, none, none, none, some "Critical"⟩

set_option maxRecDepth 10000 in
/-- A chunk id returned by angle A at rank 2 and by angle B at rank 1 survives
deduplication as angle A's finding. -/
theorem predictive_audit_first_occurrence_dedupe_witness :
    (mkFinding Angle.A angleLabelA exRowA2)
        ∈ dedupeById (buildFindings [exRowA1, exRowA2] [exRowB1] []) [] ∧
    (mkFinding Angle.A angleLabelA exRowA2).angle = Angle.A :=
  ⟨by decide,
    (predictive_audit_first_occurrence_dedupe [exRowA1, exRowA2] [exRowB1] []).2.2.2
      (mkFinding Angle.A angleLabelA exRowA2) (by decide)
      ⟨exRowA2, by decide, by decide⟩⟩

/-- C5: when the shared query-embedding step fails, no angle query contributes
and the audit result is the non-error value with an empty findings list and an
all-zero risk tally, whatever the store would have answered. -/
theorem predictive_audit_embed_failure_empty :
    ∀ store : List ℚ → SearchFilters → Nat → List PrecedentRow,
      predictive_audit none store = { findings := [], riskSummary := ⟨0, 0, 0⟩ } := by
  intro store
  rfl

/-- Every findings list splits into its RED, YELLOW and GREEN parts. -/
theorem riskLevel_partition (u : List AuditFinding) :
    (u.filter (fun f => decide (f.riskLevel = RiskLevel.RED))).length
      + (u.filter (fun f => decide (f.riskLevel = RiskLevel.YELLOW))).length
      + (u.filter (fun f => decide (f.riskLevel = RiskLevel.GREEN))).length
      = u.length := by
  induction u with
  | nil => rfl
  | cons f rest ih =>
    cases h : f.riskLevel <;> simp [List.filter_cons, h] <;> omega

/-- C9: in every audit result, each tally component counts the deduplicated
findings of that level and the three components sum to the number of
deduplicated findings. -/
theorem predictive_audit_risk_tally :
    ∀ (embedResult : Option (List ℚ))
      (store : List ℚ → SearchFilters → Nat → List PrecedentRow),
      (predictive_audit embedResult store).riskSummary.red
          = ((predictive_audit embedResult store).findings.filter
              (fun f => decide (f.riskLevel = RiskLevel.RED))).length ∧
      (predictive_audit embedResult store).riskSummary.yellow
          = ((predictive_audit embedResult store).findings.filter
              (fun f => decide (f.riskLevel = RiskLevel.YELLOW))).length ∧
      (predictive_audit embedResult store).riskSummary.green
          = ((predictive_audit embedResult store).findings.filter
              (fun f => decide (f.riskLevel = RiskLevel.GREEN))).length ∧
      (predictive_audit embedResult store).riskSummary.red
          + (predictive_audit embedResult store).riskSummary.yellow
          + (predictive_audit embedResult store).riskSummary.green
        = (predictive_audit embedResult store).findings.length := by
  intro embedResult store
  refine ⟨rfl, rfl, rfl, ?_⟩
  exact riskLevel_partition _

/-- Chunking options of the PDF processor (`PDFProcessorOptions`,
`pdf_processor` lines 114-118, with the defaults applied at lines 162-164). -/
structure PDFProcessorOptions where
  chunkSize : Nat := 1500
  chunkOverlap : Nat := 200
  minChunkLength : Nat := 100
deriving Repr

/-- A chunk as produced by `chunkText`, before annotation and global
reindexing. -/
structure RawChunk where
  content : String
  pageNumber : Nat
  chunkIndex : Nat
deriving DecidableEq, Repr

/-- The paragraph-accumulation loop of `chunkText` (lines 169-192).  When the
next paragraph would push the non-empty buffer past `chunkSize`, the trimmed
buffer is emitted and the new buffer is the JS
`currentChunk.slice(Math.max(0, currentChunk.length - chunkOverlap))` — the
trailing `chunkOverlap` characters of the untrimmed buffer — joined to the
paragraph by a blank line; otherwise the paragraph is appended (with a
blank-line separator when the buffer is non-empty).  The final buffer is
emitted when its trim is non-empty.  JS `slice`/`length` count UTF-16 units
and Lean counts characters; they agree on the ASCII text this program
handles. -/
def chunkLoop (chunkSize chunkOverlap pageNumber : Nat) :
    List String → String → Nat → List RawChunk
  | [], currentChunk, chunkIndex =>
    if jsTrim currentChunk = "" then []
    else [⟨jsTrim currentChunk, pageNumber, chunkIndex⟩]
  | para :: rest, currentChunk, chunkIndex =>
    if chunkSize < currentChunk.length + para.length ∧ 0 < currentChunk.length then
      ⟨jsTrim currentChunk, pageNumber, chunkIndex⟩ ::
        chunkLoop chunkSize chunkOverlap pageNumber rest
          (currentChunk.drop (currentChunk.length - chunkOverlap) ++ "\n\n" ++ para)
          (chunkIndex + 1)
    else
      chunkLoop chunkSize chunkOverlap pageNumber rest
        (currentChunk ++ (if currentChunk = "" then "" else "\n\n") ++ para)
        chunkIndex

/-- `chunkText` (lines 157-195).  The blank-line paragraph split
`text.split(/\n\s*\n+/)` is taken as the function parameter `splitParas`
(regular-expression matching stays outside the model); the minimum-length
paragraph filter and the accumulation loop are modelled literally. -/
def chunkText (splitParas : String → List String) (text : String)
    (pageNumber : Nat) (options : PDFProcessorOptions) : List RawChunk :=
  let paragraphs := (splitParas text).filter
    (fun p => decide (options.minChunkLength ≤ (jsTrim p).length))
  chunkLoop options.chunkSize options.chunkOverlap pageNumber paragraphs "" 0

/-- `ProcessedChunk` (`pdf_processor` lines 91-98), restricted to the fields
the claims reference; the `containsTable`, `rtfKeywordsDetected` and
`tableReferences` annotation fields come from the regex-based detectors and
are not referenced by any claim. -/
structure ProcessedChunk where
  content : String
  pageNumber : Nat
  chunkIndex : Nat
deriving DecidableEq, Repr

/-- The `chunkGlobalIndex++` counter of `processExtractedText` (lines
234-256): the n-th chunk of the flattened page chunks gets chunk index
`start + n`, overwriting the per-page index. -/
def reindexFrom : Nat → List RawChunk → List ProcessedChunk
  | _, [] => []
  | n, c :: rest => ⟨c.content, c.pageNumber, n⟩ :: reindexFrom (n + 1) rest

/-- `processExtractedText` (lines 218-272), restricted to its chunk list
output: split pages on form feeds, drop pages with blank trim (falling back
to the whole text when none survive), chunk each page with its 1-based page
number, then assign the document-global chunk indexes. -/
def processExtractedText (splitParas : String → List String) (fullText : String)
    (options : PDFProcessorOptions) : List ProcessedChunk :=
  let pageTexts := (splitOnChar '\x0c' fullText.data []).filter
    (fun t => decide (jsTrim t ≠ ""))
  let effectivePages := if pageTexts = [] then [fullText] else pageTexts
  let rawAll := (effectivePages.enum.map
    (fun pe => chunkText splitParas pe.2 (pe.1 + 1) options)).flatten
  reindexFrom 0 rawAll

/-- Every chunk index assigned from `n` on is at least `n`. -/
theorem reindexFrom_mem_le (l : List RawChunk) (n : Nat) :
    ∀ c ∈ reindexFrom n l, n ≤ c.chunkIndex := by
  induction l generalizing n with
  | nil =>
    intro c hc
    simp [reindexFrom] at hc
  | cons d rest ih =>
    intro c hc
    rcases List.mem_cons.mp hc with rfl | hc'
    · exact le_refl n
    · exact le_trans (Nat.le_succ n) (ih (n + 1) c hc')

/-- The reassigned chunk indexes are strictly increasing. -/
theorem reindexFrom_pairwise (l : List RawChunk) (n : Nat) :
    ((reindexFrom n l).map (fun c => c.chunkIndex)).Pairwise (· < ·) := by
  induction l generalizing n with
  | nil => simp [reindexFrom]
  | cons d rest ih =>
    simp only [reindexFrom, List.map_cons, List.pairwise_cons]
    refine ⟨?_, ih (n + 1)⟩
    intro m hm
    rcases List.mem_map.mp hm with ⟨c, hc, rfl⟩
    exact lt_of_lt_of_le (Nat.lt_succ_self n) (reindexFrom_mem_le rest (n + 1) c hc)

/-- C7: for every paragraph splitter, input text and option set, the chunk
sequence produced by `processExtractedText` has strictly increasing
`chunkIndex` over the whole document — the counter continues across page
boundaries and is never reset per page. -/
theorem processExtractedText_chunkIndex_strict_mono :
    ∀ (splitParas : String → List String) (fullText : String)
      (options : PDFProcessorOptions),
      ((processExtractedText splitParas fullText options).map
        (fun c => c.chunkIndex)).Pairwise (· < ·) := by
  intro splitParas fullText options
  exact reindexFrom_pairwise _ 0

/-- C8 (amended): when the next paragraph would push the non-empty buffer
past `chunkSize`, the loop emits the trimmed buffer and seeds the new buffer
with the trailing `chunkOverlap` characters of the untrimmed buffer joined to
the triggering paragraph by a blank line; whenever the buffer carries no
leading or trailing whitespace, those characters are exactly the trailing
`chunkOverlap` characters of the emitted chunk. -/
theorem chunkText_overlap_seed :
    ∀ (chunkSize chunkOverlap pageNumber : Nat) (para : String)
      (rest : List String) (currentChunk : String) (chunkIndex : Nat),
      0 < currentChunk.length →
      chunkSize < currentChunk.length + para.length →
      (chunkLoop chunkSize chunkOverlap pageNumber (para :: rest) currentChunk chunkIndex
        = ⟨jsTrim currentChunk, pageNumber, chunkIndex⟩ ::
            chunkLoop chunkSize chunkOverlap pageNumber rest
              (currentChunk.drop (currentChunk.length - chunkOverlap) ++ "\n\n" ++ para)
              (chunkIndex + 1)) ∧
      (jsTrim currentChunk = currentChunk →
        currentChunk.drop (currentChunk.length - chunkOverlap)
          = (jsTrim currentChunk).drop ((jsTrim currentChunk).length - chunkOverlap)) := by
  intro chunkSize chunkOverlap pageNumber para rest currentChunk chunkIndex h1 h2
  constructor
  · rw [chunkLoop, if_pos ⟨h2, h1⟩]
  · intro ht
    rw [ht]

/-- C8 counterexample: with chunkSize 10, overlap 3, minimum paragraph length
1 and the two paragraphs "abcde " (trailing space) and "fghijklmn", the
emitted chunk is "abcde" and its successor is "de \n\nfghijklmn": the seed was
taken from the untrimmed buffer "abcde ", so the successor neither starts
with "cde" — the trailing three characters of the emitted chunk — nor equals
"cde" joined to the triggering paragraph. -/
theorem chunkText_overlap_seed_counterexample :
    (chunkText (fun s => splitOnChar '\n' s.data []) "abcde \nfghijklmn" 1
        ⟨10, 3, 1⟩).map (fun c => c.content) = ["abcde", "de \n\nfghijklmn"] ∧
    ("de \n\nfghijklmn").take 3 ≠ ("abcde").drop ("abcde".length - 3) ∧
    "de \n\nfghijklmn" ≠ "cde" ++ "\n\n" ++ "fghijklmn" := by
  refine ⟨by decide, by decide, by decide⟩

/-- The amended overlap-seeding equation at a concrete emit step with a
whitespace-free buffer. -/
theorem chunkText_overlap_seed_witness :
    0 < ("abcde" : String).length ∧
    10 < ("abcde" : String).length + ("fghijklmn" : String).length ∧
    (chunkLoop 10 3 1 ["fghijklmn"] "abcde" 0
      = ⟨jsTrim "abcde", 1, 0⟩ ::
          chunkLoop 10 3 1 [] ("abcde".drop ("abcde".length - 3) ++ "\n\n" ++ "fghijklmn") 1) ∧
    "abcde".drop ("abcde".length - 3)
      = (jsTrim "abcde").drop ((jsTrim "abcde").length - 3) :=
  ⟨by decide, by decide,
    (chunkText_overlap_seed 10 3 1 "fghijklmn" [] "abcde" 0 (by decide) (by decide)).1,
    (chunkText_overlap_seed 10 3 1 "fghijklmn" [] "abcde" 0 (by decide) (by decide)).2
      (by decide)⟩

/-- The chunk filter of the ingestion runner (`chunks.filter((c) =>
c.content.trim().length > 50)`, ingestion runner line 49). -/
def survivingChunks (chunks : List ProcessedChunk) : List ProcessedChunk :=
  chunks.filter (fun c => decide (50 < (jsTrim c.content).length))

/-- One row assembled for the `regulatory_precedents` insert (ingestion
runner lines 58-71), restricted to the columns the claims reference. -/
structure PrecedentInsertRow where
  content : String
  embedding : List ℚ
  source_document : String
  source_page : Nat
  chunk_index : Option Nat
deriving DecidableEq, Repr

/-- Row construction for one surviving chunk.  The source populates the
chunk-index column from `c.chunk_index`; `ProcessedChunk` declares no such
property (its field is `chunkIndex`), so that JS access yields `undefined`,
modelled as `none` — the value the claim and the schema intend is
`some c.chunkIndex`. -/
def mkInsertRow (fileName : String) (c : ProcessedChunk) (e : List ℚ) :
    PrecedentInsertRow :=
  { content := c.content
    embedding := e
    source_document := fileName
    source_page := c.pageNumber
    chunk_index := none }

/-- Per-document core of the ingestion runner's `main` (lines 47-73): keep
the surviving chunks, make one batch embed call over their texts, zip the
returned vectors back onto the chunks by position, and build the insert rows.
`embed` abstracts `getEmbeddings`, whose contract returns one vector per
input text in input order. -/
def ingestRows (embed : List String → List (List ℚ)) (fileName : String)
    (chunks : List ProcessedChunk) : List PrecedentInsertRow :=
  let survivors := survivingChunks chunks
  let texts := survivors.map (fun c => c.content)
  let embeddings := embed texts
  List.zipWith (mkInsertRow fileName) survivors embeddings

/-- A chunk whose content is exactly fifty characters long. -/
def ex50Chunk : ProcessedChunk := ⟨String.mk (List.replicate 50 'a'), 1, 0⟩

/-- C4 counterexample: a chunk whose trimmed content has exactly 50
characters — "50 or more", which the claim says is kept and embedded — is
dropped by the ingestion filter, which keeps only trimmed lengths strictly
greater than 50; no row is built for it. -/
theorem ingest_filter_boundary_counterexample :
    (jsTrim ex50Chunk.content).length = 50 ∧
    survivingChunks [ex50Chunk] = [] ∧
    ingestRows (fun ts => ts.map (fun _ => [(1 : ℚ)])) "doc.pdf" [ex50Chunk] = [] := by
  refine ⟨by decide, by decide, by decide⟩

/-- C4 (amended): before the batch embed call the ingestion pipeline drops
exactly the chunks whose trimmed content has 50 characters or fewer: a chunk
survives iff its trimmed content is strictly longer than 50 characters, and
the single embed call runs over exactly the surviving chunks' texts. -/
theorem ingest_filter_strictly_over_50 :
    ∀ (chunks : List ProcessedChunk) (c : ProcessedChunk)
      (embed : List String → List (List ℚ)) (fileName : String),
      (c ∈ survivingChunks chunks ↔ c ∈ chunks ∧ 50 < (jsTrim c.content).length) ∧
      ingestRows embed fileName chunks
        = List.zipWith (mkInsertRow fileName) (survivingChunks chunks)
            (embed ((survivingChunks chunks).map (fun c => c.content))) := by
  intro chunks c embed fileName
  refine ⟨?_, rfl⟩
  simp [survivingChunks, List.mem_filter]

/-- A 120-character page text: one paragraph surviving the default
minimum-length filter, yielding one chunk. -/
def exLongContent : String := String.mk (List.replicate 120 'a')

set_option maxRecDepth 100000 in
/-- C3 (code bug): a document producing one surviving chunk (index 0, page 1)
is persisted with matching content, embedding (zipped by position), source
document and source page — but the chunk-index column receives `none`
(JS `undefined`), not the segmenter's `chunkIndex`, because the runner reads
the non-existent property `c.chunk_index` instead of `c.chunkIndex`. -/
theorem ingest_chunk_index_lost :
    (processExtractedText (fun s => [s]) exLongContent {}).map (fun c => c.chunkIndex)
        = [0] ∧
    (ingestRows (fun ts => ts.map (fun _ => [(1 : ℚ)])) "doc.pdf"
        (processExtractedText (fun s => [s]) exLongContent {}))
      = [{ content := exLongContent
           embedding := [(1 : ℚ)]
           source_document := "doc.pdf"
           source_page := 1
           chunk_index := none }] ∧
    (none : Option Nat) ≠ some 0 := by
  refine ⟨by decide, by decide, by decide⟩

/-- The provider-call events of one retrieval request. -/
inductive RetrievalEvent
| embedStart
| embedEnd
| searchStart (angle : Angle)
| searchEnd (angle : Angle)
deriving DecidableEq, Repr

/-- The event order of `predictive_audit` lines 95-102 under JS `await`
semantics: `getEmbedding(draftExcerpt)` is awaited to completion, then each
`searchPrecedents` call is awaited to completion before the next is issued
(the source sequences three `await`s; there is no `Promise.all`), giving this
strictly sequential trace. -/
def retrievalTrace : List RetrievalEvent :=
  [RetrievalEvent.embedStart, RetrievalEvent.embedEnd,
   RetrievalEvent.searchStart Angle.A, RetrievalEvent.searchEnd Angle.A,
   RetrievalEvent.searchStart Angle.B, RetrievalEvent.searchEnd Angle.B,
   RetrievalEvent.searchStart Angle.C, RetrievalEvent.searchEnd Angle.C]

/-- Position of an event in the retrieval trace. -/
def eventIndex (e : RetrievalEvent) : Nat := retrievalTrace.indexOf e

/-- Two angles' store queries run concurrently when each starts before the
other ends. -/
def searchesOverlap (x y : Angle) : Prop :=
  eventIndex (RetrievalEvent.searchStart y) < eventIndex (RetrievalEvent.searchEnd x) ∧
  eventIndex (RetrievalEvent.searchStart x) < eventIndex (RetrievalEvent.searchEnd y)

/-- C10 counterexample: no two distinct angles' nearest-neighbor queries
overlap in the retrieval trace — the three queries do not run concurrently in
any pair. -/
theorem angle_queries_not_concurrent :
    ¬ (searchesOverlap Angle.A Angle.B ∨ searchesOverlap Angle.A Angle.C ∨
        searchesOverlap Angle.B Angle.C) := by
  unfold searchesOverlap
  decide

/-- C10 (amended): within one retrieval request the three angle queries run
one after another over the shared query vector: the shared embedding step
completes before angle A's query starts, and each angle's query completes
before the next angle's starts. -/
theorem angle_queries_sequential :
    eventIndex RetrievalEvent.embedEnd
        < eventIndex (RetrievalEvent.searchStart Angle.A) ∧
    eventIndex (RetrievalEvent.searchEnd Angle.A)
        < eventIndex (RetrievalEvent.searchStart Angle.B) ∧
    eventIndex (RetrievalEvent.searchEnd Angle.B)
        < eventIndex (RetrievalEvent.searchStart Angle.C) := by
  decide

end FW
